import Mathlib

set_option linter.unusedVariables false
set_option linter.unreachableTactic false
set_option linter.unusedTactic false
set_option linter.unnecessarySeqFocus false
set_option maxHeartbeats 1000000

/-!
Verification of the CAML query builder of `loopback-connector-sharepoint`.

The development shallowly embeds the query translator of `lib/sp-lib.js`
(class `SPLib`) and, where a claim cites it, the older variant
`lib/caml-builder.js` (class `CamlBuilder`).  JavaScript values flowing
through the translator (LoopBack filter objects, the intermediate CAML
node objects, model metadata) are modelled by the inductive type `JSVal`:
objects are insertion-ordered association lists, arrays are lists, and a
`Date` carries the ISO-8601 string its `toISOString()` would produce.
Thrown JavaScript errors are modelled by `Except JSErr`: `JSErr.error`
is a `throw new Error(msg)`, `JSErr.typeError` an untyped runtime
`TypeError`.  In-place mutation of the accumulator objects built by the
compiler is modelled by explicit value threading: a function that mutates
an object it received returns the object's final value, and the alias
`camlObject[logicalOperator]` that `_addCamlCondition` hands back to its
caller is represented by the key under which the aliased sub-object sits.
-/

/-- A JavaScript value as the query translator sees it: primitives,
`Date` objects (carrying their ISO string), arrays, and plain objects
with insertion-ordered string keys. -/
inductive JSVal where
  | undef : JSVal
  | null : JSVal
  | bool (b : Bool) : JSVal
  | num (n : Int) : JSVal
  | str (s : String) : JSVal
  | date (iso : String) : JSVal
  | arr (elems : List JSVal) : JSVal
  | obj (fields : List (String × JSVal)) : JSVal
deriving Repr, Inhabited

/-- A thrown JavaScript exception: `error` is an explicit
`throw new Error(msg)`, `typeError` an untyped runtime `TypeError`. -/
inductive JSErr where
  | error (msg : String) : JSErr
  | typeError (msg : String) : JSErr
deriving DecidableEq, Repr

/-- A single-quote character, used to assemble error-message literals. -/
def sglq : String := (Char.ofNat 39).toString

/-- ASCII lowercasing of one character, as `toLowerCase` acts on the
ASCII range (the only characters the translator compares). -/
def lowerChar (c : Char) : Char :=
  if 'A' ≤ c ∧ c ≤ 'Z' then Char.ofNat (c.toNat + 32) else c

/-- ASCII uppercasing of one character. -/
def upperChar (c : Char) : Char :=
  if 'a' ≤ c ∧ c ≤ 'z' then Char.ofNat (c.toNat - 32) else c

/-- `s.toLowerCase()` on ASCII strings. -/
def jsToLower (s : String) : String := String.mk (s.data.map lowerChar)

/-- `s.toUpperCase()` on ASCII strings. -/
def jsToUpper (s : String) : String := String.mk (s.data.map upperChar)

/-- Split a character list at every occurrence of the separator, keeping
empty pieces, as JavaScript `split` with a one-character separator does. -/
def splitCharsOn (sep : Char) : List Char → List (List Char)
  | [] => [[]]
  | c :: rest =>
      if c = sep then [] :: splitCharsOn sep rest
      else
        match splitCharsOn sep rest with
        | [] => [[c]]
        | g :: gs => (c :: g) :: gs

/-- JavaScript `s.split(sep)` for a one-character separator. -/
def jsSplitChar (s : String) (sep : Char) : List String :=
  (splitCharsOn sep s.data).map String.mk

/-- `s.split(' ')`. -/
def jsSplitSpace (s : String) : List String := jsSplitChar s ' '

/-- The digit character for `n < 10`. -/
def digitChar (n : Nat) : Char := Char.ofNat (48 + n)

/-- Decimal digits of `n`, produced with a structural fuel argument. -/
def natToChars (fuel n : Nat) : List Char :=
  match fuel with
  | 0 => []
  | fuel + 1 =>
      if n < 10 then [digitChar n]
      else natToChars fuel (n / 10) ++ [digitChar (n % 10)]

/-- Decimal rendering of a natural number. -/
def natToString (n : Nat) : String := String.mk (natToChars (n + 1) n)

/-- Decimal rendering of an integer, as JavaScript stringifies numbers. -/
def intToString (i : Int) : String :=
  if i < 0 then "-" ++ natToString (-i).toNat else natToString i.toNat

/-- The value of a decimal digit list. -/
def digitsVal (cs : List Char) : Nat :=
  cs.foldl (fun acc c => acc * 10 + (c.toNat - 48)) 0

/-- A canonical JavaScript array index: all digits with no leading zero
(except `"0"` itself).  Non-canonical numeric strings are ordinary
properties and read as `undefined` on arrays. -/
def jsCanonicalIndex (k : String) : Option Nat :=
  match k.data with
  | [] => none
  | cs =>
      if cs.all Char.isDigit ∧ (cs = ['0'] ∨ cs.head? ≠ some '0') then some (digitsVal cs)
      else none

/-- Concatenation of a list of strings (structural, so proofs can
evaluate it). -/
def strConcat (xs : List String) : String := xs.foldr (fun s acc => s ++ acc) ""

/-- Concatenation with a separator between elements, as
`Array.prototype.join` produces. -/
def joinSep (sep : String) : List String → String
  | [] => ""
  | [s] => s
  | s :: rest => s ++ sep ++ joinSep sep rest

/-- Is the value `undefined` or `null`? -/
def JSVal.isNullish : JSVal → Bool
  | .undef => true
  | .null => true
  | _ => false

/-- Is the value a JavaScript array? (`_.isArray` / `Array.isArray`). -/
def JSVal.isArr : JSVal → Bool
  | .arr _ => true
  | _ => false

/-- Is the value a string? (`_.isString`). -/
def JSVal.isStr : JSVal → Bool
  | .str _ => true
  | _ => false

/-- Lodash `_.isObject`: true for plain objects, arrays and `Date`s. -/
def jsIsObject : JSVal → Bool
  | .obj _ => true
  | .arr _ => true
  | .date _ => true
  | _ => false

/-- Lodash `_.isEmpty`: `undefined`/`null`, numbers, booleans and `Date`s
are empty; strings, arrays and objects are empty when they have no
characters, elements or own keys. -/
def jsIsEmpty : JSVal → Bool
  | .undef => true
  | .null => true
  | .bool _ => true
  | .num _ => true
  | .date _ => true
  | .str s => s.data.isEmpty
  | .arr elems => elems.isEmpty
  | .obj fields => fields.isEmpty

/-- JavaScript truthiness. -/
def jsTruthy : JSVal → Bool
  | .undef => false
  | .null => false
  | .bool b => b
  | .num n => n ≠ 0
  | .str s => ¬ s.data.isEmpty
  | .date _ => true
  | .arr _ => true
  | .obj _ => true

/-- JavaScript string coercion (template literals, `String(v)`).  Arrays
join their elements with commas, rendering `undefined`/`null` elements as
the empty string; a `Date` is rendered by its ISO string. -/
def jsToString : JSVal → String
  | .undef => "undefined"
  | .null => "null"
  | .bool b => if b then "true" else "false"
  | .num n => intToString n
  | .str s => s
  | .date iso => iso
  | .obj _ => "[object Object]"
  | .arr elems =>
      joinSep "," (elems.attach.map fun ⟨x, hx⟩ =>
        if x.isNullish then "" else jsToString x)
termination_by v => sizeOf v
decreasing_by
  have h1 := List.sizeOf_lt_of_mem hx
  simp only [JSVal.arr.sizeOf_spec]
  omega

/-- `Object.keys`: own enumerable keys in insertion order; array and
string indices as decimal strings; throws a `TypeError` on
`undefined`/`null`. -/
def jsKeys : JSVal → Except JSErr (List String)
  | .undef => .error (.typeError "Cannot convert undefined or null to object")
  | .null => .error (.typeError "Cannot convert undefined or null to object")
  | .obj fields => .ok (fields.map Prod.fst)
  | .arr elems => .ok ((List.range elems.length).map natToString)
  | .str s => .ok ((List.range s.length).map natToString)
  | _ => .ok []

/-- `Object.values`, mirroring `jsKeys`. -/
def jsValues : JSVal → Except JSErr (List JSVal)
  | .undef => .error (.typeError "Cannot convert undefined or null to object")
  | .null => .error (.typeError "Cannot convert undefined or null to object")
  | .obj fields => .ok (fields.map Prod.snd)
  | .arr elems => .ok elems
  | .str s => .ok (s.toList.map fun c => .str (String.mk [c]))
  | _ => .ok []

/-- First-match lookup in an insertion-ordered field list. -/
def lookupField : List (String × JSVal) → String → Option JSVal
  | [], _ => none
  | p :: rest, k => if p.1 = k then some p.2 else lookupField rest k

/-- Property read `o[k]` at places where the base is known not to be
`undefined`/`null` (each use site in the embedding is guarded by a
preceding `Object.keys`/`hasOwnProperty` that would have thrown).
Missing keys give `undefined`. -/
def jsIndex (o : JSVal) (k : String) : JSVal :=
  match o with
  | .obj fields =>
      match lookupField fields k with
      | some v => v
      | none => .undef
  | .arr elems =>
      match jsCanonicalIndex k with
      | some i => elems.getD i .undef
      | none => if k = "length" then .num elems.length else .undef
  | .str s =>
      match jsCanonicalIndex k with
      | some i =>
          match s.toList.get? i with
          | some c => .str (String.mk [c])
          | none => .undef
      | none => if k = "length" then .num s.length else .undef
  | _ => (.undef : JSVal)

/-- Member access `o.k` (or `o[k]` where `o` may be absent): throws a
`TypeError` when the base is `undefined`/`null`. -/
def jsMember (o : JSVal) (k : String) : Except JSErr JSVal :=
  match o with
  | .undef => .error (.typeError ("Cannot read properties of undefined (reading " ++ sglq ++ k ++ sglq ++ ")"))
  | .null => .error (.typeError ("Cannot read properties of null (reading " ++ sglq ++ k ++ sglq ++ ")"))
  | _ => .ok (jsIndex o k)

/-- `o.hasOwnProperty(k)`: throws a `TypeError` when `o` is
`undefined`/`null`. -/
def jsHasOwnProperty (o : JSVal) (k : String) : Except JSErr Bool :=
  match o with
  | .undef => .error (.typeError ("Cannot read properties of undefined (reading " ++ sglq ++ "hasOwnProperty" ++ sglq ++ ")"))
  | .null => .error (.typeError ("Cannot read properties of null (reading " ++ sglq ++ "hasOwnProperty" ++ sglq ++ ")"))
  | .obj fields => .ok (fields.any fun p => p.1 = k)
  | .arr elems =>
      .ok (match jsCanonicalIndex k with
           | some i => i < elems.length
           | none => k = "length")
  | .str s =>
      .ok (match jsCanonicalIndex k with
           | some i => i < s.length
           | none => k = "length")
  | _ => .ok false

/-- Property write `o[k] = v` on an object: updates the key in place when
present (keeping its position), appends it otherwise; on an array only
existing numeric indices are written; writes to primitives are dropped. -/
def jsSet (o : JSVal) (k : String) (v : JSVal) : JSVal :=
  match o with
  | .obj fields => .obj (jsSetFields fields k v)
  | .arr elems =>
      match jsCanonicalIndex k with
      | some i => if i < elems.length then .arr (elems.set i v) else .arr elems
      | none => .arr elems
  | other => other
where
  /-- Update-or-append on an insertion-ordered field list. -/
  jsSetFields : List (String × JSVal) → String → JSVal → List (String × JSVal)
    | [], k, v => [(k, v)]
    | (k', v') :: rest, k, v =>
        if k' = k then (k, v) :: rest else (k', v') :: jsSetFields rest k v

/-- Lodash `_.get` along an already-split dot path; never throws,
missing steps give `undefined`. -/
def jsGetPath (o : JSVal) : List String → JSVal
  | [] => o
  | k :: rest => jsGetPath (jsIndex o k) rest

/-- The decimal-digit prefix of a character list, if nonempty. -/
def digitsPrefix (cs : List Char) : Option Nat :=
  let ds := cs.takeWhile Char.isDigit
  if ds.isEmpty then none
  else some (ds.foldl (fun acc c => acc * 10 + (c.toNat - 48)) 0)

/-- `parseInt(s, 10)`: skip leading whitespace, optional sign, then the
decimal-digit prefix; `none` models `NaN`. -/
def parseIntStr (s : String) : Option Int :=
  let cs := s.toList.dropWhile fun c => c = ' ' ∨ c = '\t' ∨ c = '\n' ∨ c = '\r'
  match cs with
  | '-' :: rest => (digitsPrefix rest).map fun n => -(n : Int)
  | '+' :: rest => (digitsPrefix rest).map fun n => (n : Int)
  | _ => (digitsPrefix cs).map fun n => (n : Int)

/-- Lodash `_.parseInt`: coerce to string, then `parseInt` base 10.
`undefined`/`null` coerce to the empty string under lodash `toString`. -/
def jsParseInt (v : JSVal) : Option Int :=
  match v with
  | .undef => none
  | .null => none
  | _ => parseIntStr (jsToString v)

/-- Escape a string for a JSON string literal (quote and backslash). -/
def jsonQuote (s : String) : String :=
  "\"" ++ strConcat (s.toList.map fun c =>
    if c = '"' then "\\\"" else if c = '\\' then "\\\\" else String.mk [c]) ++ "\""

/-- `JSON.stringify`: `none` when the argument is `undefined` (which a
template literal then renders as the text `undefined`); object entries
whose value is `undefined` are skipped, array holes become `null`. -/
def jsonStringify : JSVal → Option String
  | .undef => none
  | .null => some "null"
  | .bool b => some (if b then "true" else "false")
  | .num n => some (toString n)
  | .str s => some (jsonQuote s)
  | .date iso => some (jsonQuote iso)
  | .arr elems =>
      some ("[" ++ joinSep ","
        (elems.attach.map fun ⟨x, hx⟩ => (jsonStringify x).getD "null") ++ "]")
  | .obj fields =>
      some ("\x7b" ++ joinSep ","
        (fields.attach.filterMap fun ⟨p, hp⟩ =>
          (jsonStringify p.2).map fun sv => jsonQuote p.1 ++ ":" ++ sv) ++ "\x7d")
termination_by v => sizeOf v
decreasing_by
  all_goals first
  | (have h1 := List.sizeOf_lt_of_mem hx
     simp only [JSVal.arr.sizeOf_spec]
     omega)
  | (obtain ⟨a, b⟩ := p
     have h1 := List.sizeOf_lt_of_mem hp
     simp only [Prod.mk.sizeOf_spec] at h1
     simp only [JSVal.obj.sizeOf_spec]
     omega)

/-- Render `undefined`/`null` text inserted into a template literal from
a `JSON.stringify` result. -/
def jsonStringifyText (v : JSVal) : String :=
  (jsonStringify v).getD "undefined"

/-- Escape character data for XML text content (`&`, `<`, `>`). -/
def escapeXmlText (s : String) : String :=
  strConcat (s.toList.map fun c =>
    if c = '&' then "&amp;" else if c = '<' then "&lt;"
    else if c = '>' then "&gt;" else String.mk [c])

/-- Escape an XML attribute value (`&`, `<`, `>`, `"`). -/
def escapeXmlAttr (s : String) : String :=
  strConcat (s.toList.map fun c =>
    if c = '&' then "&amp;" else if c = '<' then "&lt;"
    else if c = '>' then "&gt;" else if c = '"' then "&quot;" else String.mk [c])

/-- Render the `$` attribute bag of an xml2js node. -/
def renderAttrs (v : JSVal) : String :=
  match v with
  | .obj fields =>
      strConcat (fields.map fun p =>
        " " ++ p.1 ++ "=\"" ++ escapeXmlAttr (jsToString p.2) ++ "\"")
  | _ => ""

/-- Render one element of an xml2js object tree, mirroring
`new xml2js.Builder({headless: true, renderOpts: {pretty: false}})`:
`$` holds attributes, `_` character content, every other key a child
element, an array a run of repeated elements, and an element with no
content renders self-closing. -/
def renderElem (tag : String) (v : JSVal) : String :=
  match v with
  | .arr elems => strConcat (elems.attach.map fun ⟨x, hx⟩ => renderElem tag x)
  | .obj fields =>
      let attrs := renderAttrs (jsIndex (.obj fields) "$")
      let textStr :=
        match jsIndex (.obj fields) "_" with
        | .undef => ""
        | w => escapeXmlText (jsToString w)
      let children := strConcat (fields.attach.map fun ⟨p, hp⟩ =>
        if p.1 = "$" ∨ p.1 = "_" then "" else renderElem p.1 p.2)
      let content := textStr ++ children
      if content = "" then "<" ++ tag ++ attrs ++ "/>"
      else "<" ++ tag ++ attrs ++ ">" ++ content ++ "</" ++ tag ++ ">"
  | .undef => "<" ++ tag ++ "/>"
  | .null => "<" ++ tag ++ "/>"
  | prim =>
      let t := escapeXmlText (jsToString prim)
      if t = "" then "<" ++ tag ++ "/>" else "<" ++ tag ++ ">" ++ t ++ "</" ++ tag ++ ">"
termination_by sizeOf v
decreasing_by
  all_goals first
  | (have h1 := List.sizeOf_lt_of_mem hx
     simp only [JSVal.arr.sizeOf_spec]
     omega)
  | (obtain ⟨a, b⟩ := p
     have h1 := List.sizeOf_lt_of_mem hp
     simp only [Prod.mk.sizeOf_spec] at h1
     simp only [JSVal.obj.sizeOf_spec]
     omega)

/-- Model of `xmlBuilder.buildObject`: render each root key in order. -/
def xmlBuildObject (root : JSVal) : String :=
  match root with
  | .obj fields => strConcat (fields.map fun p => renderElem p.1 p.2)
  | _ => ""

/-- Computed property key `\x7b[x]: ...\x7d` where `x` may be the
`undefined` result of an unmatched `getCamlName` lookup: JavaScript
stringifies `undefined` to the key `"undefined"`. -/
def camlKeyOf (o : Option String) : String := o.getD "undefined"

/-- Operator-name table `getCamlName` of `lib/sp-lib.js`: a `switch` on
the lowercased LoopBack name with no default, so unmapped names give
`undefined` (`none`). -/
def SPLib.getCamlName (lbName : String) : Option String :=
  match jsToLower lbName with
  | "and" => some "And"
  | "or" => some "Or"
  | "=" => some "Eq"
  | "neq" => some "Neq"
  | "gt" => some "Gt"
  | "gte" => some "Geq"
  | "lt" => some "Lt"
  | "lte" => some "Leq"
  | "inq" => some "In"
  | "like" => some "BeginsWith"
  | "contains" => some "Contains"
  | _ => none

/-- The `getDefaultSharePointType` table of `lib/sp-lib.js`; calling it
with a non-string (in particular `undefined`) throws the `TypeError` of
`lsType.toLowerCase()`. -/
def SPLib.getDefaultSharePointType (lsType : JSVal) : Except JSErr String :=
  match lsType with
  | .str s =>
      .ok (match jsToLower s with
           | "string" => "Text"
           | "number" => "Number"
           | "boolean" => "Boolean"
           | "date" => "DateTime"
           | _ => "Text")
  | .undef => .error (.typeError ("Cannot read properties of undefined (reading " ++ sglq ++ "toLowerCase" ++ sglq ++ ")"))
  | .null => .error (.typeError ("Cannot read properties of null (reading " ++ sglq ++ "toLowerCase" ++ sglq ++ ")"))
  | _ => .error (.typeError "lsType.toLowerCase is not a function")

/-- `SPLib.getSPFieldName`: lodash `_.get` of
`properties.<property>.sharepoint.columnName` (the property name is
spliced into the dot path, so lodash splits it on dots too), falling back
to the property name itself when the result is falsy. -/
def SPLib.getSPFieldName (model : JSVal) (property : String) : JSVal :=
  let c := jsGetPath model ("properties" :: jsSplitChar property '.' ++ ["sharepoint", "columnName"])
  if jsTruthy c then c else .str property

/-- `SPLib.getSPFieldType`: the field named `ID` is hardcoded to `Number`
before any metadata lookup; a missing property definition throws the
unknown-field `Error`; otherwise the explicit `sharepoint.dataType`
override wins over the declared `type.name` mapped through
`getDefaultSharePointType`. -/
def SPLib.getSPFieldType (model : JSVal) (property : String) : Except JSErr JSVal :=
  if property = "ID" then .ok (.str "Number")
  else do
    let props ← jsMember model "properties"
    let propDefinition ← jsMember props property
    if jsTruthy propDefinition then
      let dt := jsGetPath propDefinition ["sharepoint", "dataType"]
      if jsTruthy dt then pure dt
      else do
        let t ← SPLib.getDefaultSharePointType (jsGetPath propDefinition ["type", "name"])
        pure (.str t)
    else
      .error (.error ("Property " ++ property ++ " is not defined for type " ++
        jsToString (jsIndex model "name") ++ "."))

/-- The module-level `parseExpression` of `lib/sp-lib.js`: a
single-key `\x7bfield: value\x7d` object gives operator `=`; a single-key
object value gives that key as the operator; anything else throws. -/
def SPLib.parseExpression (expression : JSVal) : Except JSErr (String × String × JSVal) := do
  let expressionKeys ← jsKeys expression
  if expressionKeys.length = 1 then
    let field := expressionKeys.headD ""
    let v := jsIndex expression field
    if ¬ jsIsObject v then pure (field, "=", v)
    else do
      let conditionKeys ← jsKeys v
      if conditionKeys.length = 1 then
        let operator := conditionKeys.headD ""
        pure (field, operator, jsIndex v operator)
      else .error (.error ("Invalid condition: " ++ jsonStringifyText v ++ "."))
  else .error (.error ("Invalid expression: " ++ jsonStringifyText expression ++ "."))

/-- `SPLib._buildCamlExpression`: resolve field and type, build the
multi-value `Values` node for `inq`/`nin` (throwing on a non-array
operand), otherwise a single `Value` node with ISO-formatted dates and
`0`/`1` booleans.  An operator missing from `getCamlName` becomes the
literal element tag `undefined`. -/
def SPLib._buildCamlExpression (model : JSVal) (expression : JSVal) : Except JSErr JSVal := do
  let pe ← SPLib.parseExpression expression
  let field := pe.1
  let operator := pe.2.1
  let value := pe.2.2
  let fieldType ← SPLib.getSPFieldType model field
  if operator = "inq" ∨ operator = "nin" then
    match value with
    | .arr vs =>
        let camlValues : List JSVal := vs.map fun v => .obj [("_", v), ("$", .obj [("Type", fieldType)])]
        pure (.obj [(camlKeyOf (SPLib.getCamlName operator), .obj [
          ("FieldRef", .obj [("$", .obj [("Name", SPLib.getSPFieldName model field)])]),
          ("Values", .obj [("Value", .arr camlValues)])])])
    | _ => .error (.error ("Invalid " ++ sglq ++ "in" ++ sglq ++ " values. Must be an array."))
  else
    let formattedValue : JSVal :=
      match value with
      | .date iso => .str iso
      | .bool b => .num (if b then 1 else 0)
      | v => v
    pure (.obj [(camlKeyOf (SPLib.getCamlName operator), .obj [
      ("FieldRef", .obj [("$", .obj [("Name", SPLib.getSPFieldName model field)])]),
      ("Value", .obj [("_", formattedValue), ("$", .obj [("Type", fieldType)])])])])

/-- Object-literal construction with JavaScript duplicate-key semantics
(first occurrence keeps the position, the last value wins). -/
def objLiteral (entries : List (String × JSVal)) : JSVal :=
  entries.foldl (fun o p => jsSet o p.1 p.2) (.obj [])

/-- The trailing `Object.keys(camlObject[logicalOperator]).length === 3`
block of `SPLib._addCamlCondition`: when the logical element has
accumulated three operator keys, the last two are displaced into a nested
logical element, and the displaced alias is returned; otherwise the
JavaScript function returns `undefined` (`none`). -/
def SPLib.restructureCheck (camlObject : JSVal) (logicalOperator : String) :
    Except JSErr (JSVal × Option String) := do
  let inner := jsIndex camlObject logicalOperator
  let keys ← jsKeys inner
  let values ← jsValues inner
  if keys.length = 3 then
    let newInner := objLiteral [(keys.getD 0 "undefined", values.getD 0 .undef),
      (logicalOperator, objLiteral [(keys.getD 1 "undefined", values.getD 1 .undef),
        (keys.getD 2 "undefined", values.getD 2 .undef)])]
    pure (jsSet camlObject logicalOperator newInner, some logicalOperator)
  else pure (camlObject, none)

/-- `SPLib._addCamlCondition`: mutate `camlObject` under its last key
`logicalOperator` by inserting `camlCondition`'s single operator/value
pair — as a fresh key, by widening an existing entry to a two-element
array, or (for an existing two-element array) by displacing the popped
last element into a nested logical element that is returned as the new
insertion point.  The returned `Option String` is the key of the aliased
sub-object the JavaScript function returns (`none` for `undefined`). -/
def SPLib._addCamlCondition (newLogicalOperator : String) (camlObject camlCondition : JSVal) :
    Except JSErr (JSVal × Option String) := do
  let camlKeys ← jsKeys camlObject
  let logicalOperator := camlKeys.getLast?.getD "undefined"
  let condKeys ← jsKeys camlCondition
  let operator := condKeys.headD "undefined"
  let condValues ← jsValues camlCondition
  let condition := condValues.headD .undef
  let inner := jsIndex camlObject logicalOperator
  let hasOwn ← jsHasOwnProperty inner operator
  if ¬ hasOwn then
    SPLib.restructureCheck (jsSet camlObject logicalOperator (jsSet inner operator condition)) logicalOperator
  else
    match jsIndex inner operator with
    | .arr xs =>
        if xs.length = 2 then
          let lastCondition := xs.getLast?.getD .undef
          let headCondition := xs.headD .undef
          let inner1 := jsSet inner operator headCondition
          let inner2 := jsSet inner1 newLogicalOperator (.obj [(operator, .arr [lastCondition, condition])])
          pure (jsSet camlObject logicalOperator inner2, some logicalOperator)
        else SPLib.restructureCheck camlObject logicalOperator
    | old =>
        SPLib.restructureCheck (jsSet camlObject logicalOperator (jsSet inner operator (.arr [old, condition]))) logicalOperator

mutual

/-- `SPLib._buildCamlCondition`: zero keys give an empty node, a single
`or`/`and` key with an array value starts the logical fold seeded with
`\x7b[camlOperator]: \x7b\x7d\x7d`, any other single key is a comparison
expression, and two or more keys throw the malformed-clause `Error`. -/
def SPLib._buildCamlCondition (model : JSVal) (lbWhere : JSVal) : Except JSErr JSVal := do
  let keys ← jsKeys lbWhere
  if keys.length = 0 then pure (.obj [])
  else if keys.length = 1 then
    match lbWhere with
    | .obj [(k, .arr elems)] =>
        if k = "or" ∨ k = "and" then
          let camlOperator := camlKeyOf (SPLib.getCamlName k)
          SPLib._buildLogicalCaml model camlOperator elems (.obj [(camlOperator, .obj [])])
        else SPLib._buildCamlExpression model lbWhere
    | _ => SPLib._buildCamlExpression model lbWhere
  else .error (.error ("Invalid " ++ sglq ++ "where" ++ sglq ++ " clause. It must be in \x7bkey: value\x7d format."))
termination_by sizeOf lbWhere
decreasing_by
  all_goals
    simp only [List.cons.sizeOf_spec, List.nil.sizeOf_spec, JSVal.obj.sizeOf_spec,
      JSVal.arr.sizeOf_spec, Prod.mk.sizeOf_spec]
    omega

/-- `SPLib._buildLogicalCaml` at entry (`index = 0`): compile the first
two conditions (dereferencing the second unconditionally, so a
single-element array compiles `undefined` and hits the `Object.keys`
`TypeError`), add both to the accumulator, then continue from index 2. -/
def SPLib._buildLogicalCaml (model : JSVal) (operator : String) (lbConditions : List JSVal) (result : JSVal) :
    Except JSErr JSVal :=
  match lbConditions with
  | [] => pure result
  | c0 :: rest => do
      let firstCondition ← SPLib._buildCamlCondition model c0
      let secondCondition ← SPLib._buildCamlCondition model (rest.headD .undef)
      let r1 ← SPLib._addCamlCondition operator result firstCondition
      let r2 ← SPLib._addCamlCondition operator r1.1 secondCondition
      SPLib._buildLogicalFold model operator r2.1 rest.tail
termination_by sizeOf lbConditions
decreasing_by
  all_goals first
  | (simp only [List.cons.sizeOf_spec, List.nil.sizeOf_spec, JSVal.obj.sizeOf_spec,
       JSVal.arr.sizeOf_spec, Prod.mk.sizeOf_spec]
     omega)
  | (cases rest <;>
      simp only [List.headD_nil, List.headD_cons, List.tail_nil, List.tail_cons,
        List.cons.sizeOf_spec, List.nil.sizeOf_spec, JSVal.undef.sizeOf_spec] <;>
      omega)

/-- The `index ≥ 2` recursion of `SPLib._buildLogicalCaml`: each step
adds the next compiled condition to the current insertion point.  When
`_addCamlCondition` returns an alias the recursion descends into it (the
final sub-object value is written back); when it returns `undefined` and
conditions remain, the next step compiles its condition and then crashes
in `Object.keys(undefined)`. -/
def SPLib._buildLogicalFold (model : JSVal) (operator : String) (aliasVal : JSVal) (rest : List JSVal) :
    Except JSErr JSVal :=
  match rest with
  | [] => pure aliasVal
  | c :: rest2 => do
      let condition ← SPLib._buildCamlCondition model c
      let step ← SPLib._addCamlCondition operator aliasVal condition
      match step.2 with
      | some lo => do
          let sub ← SPLib._buildLogicalFold model operator (jsIndex step.1 lo) rest2
          pure (jsSet step.1 lo sub)
      | none =>
          match rest2 with
          | [] => pure step.1
          | c2 :: _ => do
              let _ ← SPLib._buildCamlCondition model c2
              .error (.typeError "Cannot convert undefined or null to object")
termination_by sizeOf rest
decreasing_by
  all_goals first
  | (simp only [List.cons.sizeOf_spec, List.nil.sizeOf_spec, JSVal.obj.sizeOf_spec,
       JSVal.arr.sizeOf_spec, Prod.mk.sizeOf_spec]
     omega)
  | (cases rest <;>
      simp only [List.headD_nil, List.headD_cons, List.tail_nil, List.tail_cons,
        List.cons.sizeOf_spec, List.nil.sizeOf_spec, JSVal.undef.sizeOf_spec] <;>
      omega)

end

/-- `SPLib.buildWhere`: the empty filter short-circuits to the empty
string; otherwise the compiled condition tree is serialized under a
`Where` root. -/
def SPLib.buildWhere (model : JSVal) (lbWhere : JSVal) : Except JSErr String :=
  if jsIsEmpty lbWhere then pure ""
  else do
    let w ← SPLib._buildCamlCondition model lbWhere
    pure (xmlBuildObject (.obj [("Where", w)]))

/-- `SPLib._getOrderByFieldRef`: non-strings throw; one space-separated
token gives a bare `FieldRef`; two tokens require `ASC`/`DESC`
(case-insensitively) and set `Ascending`; any other token count falls off
the end of the JavaScript function, returning `undefined` (`none`). -/
def SPLib._getOrderByFieldRef (model : JSVal) (orderClause : JSVal) : Except JSErr (Option JSVal) :=
  match orderClause with
  | .str s =>
      let clauseParts := jsSplitSpace s
      if clauseParts.length = 1 then
        pure (some (.obj [("FieldRef", .obj [("$", .obj [("Name", SPLib.getSPFieldName model (clauseParts.headD ""))])])]))
      else if clauseParts.length = 2 then
        let dir := jsToUpper (clauseParts.getD 1 "")
        if dir = "ASC" then
          pure (some (.obj [("FieldRef", .obj [("$", .obj [("Name", SPLib.getSPFieldName model (clauseParts.headD "")), ("Ascending", .str "TRUE")])])]))
        else if dir = "DESC" then
          pure (some (.obj [("FieldRef", .obj [("$", .obj [("Name", SPLib.getSPFieldName model (clauseParts.headD "")), ("Ascending", .str "FALSE")])])]))
        else .error (.error "Invalid order direction. Must be either ASC or DESC")
      else pure none
  | _ => .error (.error "Invalid order expression. Must be a string.")

/-- `SPLib.buildRowLimit`: `_.parseInt` the input; a falsy result (`NaN`
or `0`) emits nothing, any other integer is serialized as a `RowLimit`
element.  The function cannot throw. -/
def SPLib.buildRowLimit (limit : JSVal) : String :=
  match jsParseInt limit with
  | none => ""
  | some n => if n = 0 then "" else xmlBuildObject (.obj [("RowLimit", .num n)])

/-- A value copy, modelling `_.cloneDeep`: in value semantics the copy
has the same value as the original; the freshness of the copy is
reflected at each call site by not threading mutations of the clone back
into the cloned value. -/
def cloneDeep (v : JSVal) : JSVal := v

/-- Convert the result of a `getCamlName` lookup to the JavaScript value
that flows onward (`undefined` when the switch fell through). -/
def jsValOfOption : Option String → JSVal
  | some s => .str s
  | none => (.undef : JSVal)

/-- Operator-name table of `lib/caml-builder.js`: several operators map
to the empty string; the capitalized case labels can never match a
lowercased scrutinee and are dead. -/
def CamlBuilder.getCamlName (lbName : String) : Option String :=
  match jsToLower lbName with
  | "and" => some "And"
  | "or" => some "Or"
  | "eq" => some "Eq"
  | "neq" => some ""
  | "gt" => some ""
  | "gte" => some ""
  | "lt" => some ""
  | "lte" => some ""
  | "inc" => some ""
  | "nin" => some ""
  | "in" => some "In"
  | "like" => some "BeginsWith"
  | "contains" => some "Contains"
  | _ => none

/-- The `getDefaultSharePointType` table of `lib/caml-builder.js`, which
maps `number` to `Integer` (unlike `sp-lib.js`). -/
def CamlBuilder.getDefaultSharePointType (lsType : JSVal) : Except JSErr String :=
  match lsType with
  | .str s =>
      .ok (match jsToLower s with
           | "string" => "Text"
           | "number" => "Integer"
           | "boolean" => "Boolean"
           | "date" => "DateTime"
           | _ => "Text")
  | .undef => .error (.typeError ("Cannot read properties of undefined (reading " ++ sglq ++ "toLowerCase" ++ sglq ++ ")"))
  | .null => .error (.typeError ("Cannot read properties of null (reading " ++ sglq ++ "toLowerCase" ++ sglq ++ ")"))
  | _ => .error (.typeError "lsType.toLowerCase is not a function")

/-- `CamlBuilder.getSPFieldName`, identical to the `sp-lib.js` version. -/
def CamlBuilder.getSPFieldName (model : JSVal) (property : String) : JSVal :=
  let c := jsGetPath model ("properties" :: jsSplitChar property '.' ++ ["sharepoint", "columnName"])
  if jsTruthy c then c else .str property

/-- `CamlBuilder.getSPFieldType`: two `_.get` lookups with no
unknown-field check; a missing declared type reaches
`getDefaultSharePointType` with `undefined` and crashes there. -/
def CamlBuilder.getSPFieldType (model : JSVal) (property : String) : Except JSErr JSVal :=
  let dt := jsGetPath model ("properties" :: jsSplitChar property '.' ++ ["sharepoint", "dataType"])
  if jsTruthy dt then pure dt
  else do
    let t ← CamlBuilder.getDefaultSharePointType
      (jsGetPath model ("properties" :: jsSplitChar property '.' ++ ["type", "name"]))
    pure (.str t)

/-- The module-level `parseExpression` of `lib/caml-builder.js` (its
default operator is the name `eq`, not `=` as in `sp-lib.js`). -/
def CamlBuilder.parseExpression (expression : JSVal) : Except JSErr (String × String × JSVal) := do
  let expressionKeys ← jsKeys expression
  if expressionKeys.length = 1 then
    let field := expressionKeys.headD ""
    let v := jsIndex expression field
    if ¬ jsIsObject v then pure (field, "eq", v)
    else do
      let conditionKeys ← jsKeys v
      if conditionKeys.length = 1 then
        let operator := conditionKeys.headD ""
        pure (field, operator, jsIndex v operator)
      else .error (.error ("Invalid condition: " ++ jsonStringifyText v ++ "."))
  else .error (.error ("Invalid expression: " ++ jsonStringifyText expression ++ "."))

/-- `CamlBuilder._buildCamlExpression`: only the operator name `in` is
multi-valued (each element wrapped in its own `Value` object under a
`Values` array), the single-value branch uses the raw field name and raw
value with no formatting. -/
def CamlBuilder._buildCamlExpression (model expression : JSVal) : Except JSErr JSVal := do
  let pe ← CamlBuilder.parseExpression expression
  let field := pe.1
  let operator := pe.2.1
  let value := pe.2.2
  let fieldType ← CamlBuilder.getSPFieldType model field
  if operator = "in" then
    match value with
    | .arr vs =>
        let camlValues : List JSVal :=
          vs.map fun v => .obj [("Value", .obj [("_", v), ("$", .obj [("Type", fieldType)])])]
        pure (.obj [(camlKeyOf (CamlBuilder.getCamlName operator), .obj [
          ("FieldRef", .obj [("$", .obj [("Name", CamlBuilder.getSPFieldName model field)])]),
          ("Values", .arr camlValues)])])
    | _ => .error (.error ("Invalid " ++ sglq ++ "in" ++ sglq ++ " values. Must be an array."))
  else
    pure (.obj [(camlKeyOf (CamlBuilder.getCamlName operator), .obj [
      ("FieldRef", .obj [("$", .obj [("Name", .str field)])]),
      ("Value", .obj [("_", value), ("$", .obj [("Type", fieldType)])])])])

/-- The module-level `isLogical` of `lib/caml-builder.js`: a single-key
object whose key is `and`/`or` with an array value. -/
def CamlBuilder.isLogical (expression : JSVal) : Bool :=
  match expression with
  | .obj [(k, .arr _)] => k = "and" ∨ k = "or"
  | _ => false

/-- `CamlBuilder._buildWhere`, the recursive clause compiler of
`lib/caml-builder.js`.  Its two side effects are modelled explicitly:
the `this.camlDebug.push(_.cloneDeep(camlClause))` at entry is returned
as the list of pushed values (the instance state is only ever appended
to, never read, inside the function), and the in-place mutations — the
`lbClause.shift()` that consumes the caller's array and the writes
through `camlClause[wrapElement]` — are modelled by returning, next to
the JavaScript return value, the final values of the `lbClause` and
`camlClause` arguments: the result triple is
(return value, final `lbClause`, final `camlClause`). -/
def CamlBuilder._buildWhere (model lbClause camlClause wrapElement : JSVal) :
    List JSVal × Except JSErr (JSVal × JSVal × JSVal) :=
  let pushes := [cloneDeep camlClause]
  let cc := if jsTruthy camlClause then camlClause else .obj []
  match lbClause with
  | .undef => (pushes, .error (.typeError "Cannot convert undefined or null to object"))
  | .null => (pushes, .error (.typeError "Cannot convert undefined or null to object"))
  | .arr elems =>
      match elems with
      | [] => (pushes, .ok (cc, lbClause, cc))
      | expression :: rest =>
          if jsTruthy wrapElement then
            let wrapKey := jsToString wrapElement
            if CamlBuilder.isLogical expression then
              match CamlBuilder._buildWhere model expression (cloneDeep cc) .undef with
              | (p1, .error e) => (pushes ++ p1, .error e)
              | (p1, .ok (ret1, _, _)) =>
                  let cc1 := jsSet cc wrapKey ret1
                  match CamlBuilder._buildWhere model (.arr rest) (jsIndex cc1 wrapKey) wrapElement with
                  | (p2, .error e) => (pushes ++ p1 ++ p2, .error e)
                  | (p2, .ok (_, restFinal, subFinal)) =>
                      let ccFinal := jsSet cc1 wrapKey subFinal
                      (pushes ++ p1 ++ p2, .ok (ccFinal, restFinal, ccFinal))
            else
              match CamlBuilder._buildCamlExpression model expression with
              | .error e => (pushes, .error e)
              | .ok expr =>
                  let cc1 := jsSet cc wrapKey expr
                  match CamlBuilder._buildWhere model (.arr rest) (jsIndex cc1 wrapKey) wrapElement with
                  | (p2, .error e) => (pushes ++ p2, .error e)
                  | (p2, .ok (_, restFinal, subFinal)) =>
                      let ccFinal := jsSet cc1 wrapKey subFinal
                      (pushes ++ p2, .ok (ccFinal, restFinal, ccFinal))
          else (pushes, .ok (cc, lbClause, cc))
  | .obj fields =>
      match fields with
      | [] => (pushes, .ok (.obj [], lbClause, cc))
      | [(k, v)] =>
          if k = "or" ∨ k = "and" ∨ v.isArr then
            match CamlBuilder._buildWhere model v cc (jsValOfOption (CamlBuilder.getCamlName k)) with
            | (p1, .error e) => (pushes ++ p1, .error e)
            | (p1, .ok (_, vFinal, ccFinal)) =>
                (pushes ++ p1, .ok (ccFinal, .obj [(k, vFinal)], ccFinal))
          else
            match CamlBuilder._buildCamlExpression model (.obj [(k, v)]) with
            | .error e => (pushes, .error e)
            | .ok r => (pushes, .ok (r, lbClause, cc))
      | _ => (pushes, .ok (cc, lbClause, cc))
  | .str s =>
      match s.data with
      | [] => (pushes, .ok (.obj [], lbClause, cc))
      | [_] =>
          match CamlBuilder._buildCamlExpression model lbClause with
          | .error e => (pushes, .error e)
          | .ok r => (pushes, .ok (r, lbClause, cc))
      | _ => (pushes, .ok (cc, lbClause, cc))
  | _ => (pushes, .ok (.obj [], lbClause, cc))
termination_by sizeOf lbClause
decreasing_by
  all_goals
    simp only [List.cons.sizeOf_spec, List.nil.sizeOf_spec, JSVal.obj.sizeOf_spec,
      JSVal.arr.sizeOf_spec, Prod.mk.sizeOf_spec]
    omega

/-- `CamlBuilder.buildWhere`: an empty filter returns `undefined`
without touching the instance state; otherwise the compiler runs on a
`_.cloneDeep` copy of the caller's tree, so the caller's tree keeps its
value, while the debug pushes are appended to the instance's
`camlDebug`.  The result is (final `camlDebug`, return value, final
value of the caller-supplied tree). -/
def CamlBuilder.buildWhere (model : JSVal) (camlDebug : List JSVal) (lbWhere : JSVal) :
    List JSVal × Except JSErr JSVal × JSVal :=
  if jsIsEmpty lbWhere then (camlDebug, .ok .undef, lbWhere)
  else
    match CamlBuilder._buildWhere model (cloneDeep lbWhere) .undef .undef with
    | (pushes, .ok r) => (camlDebug ++ pushes, .ok (.str (xmlBuildObject r.1)), lbWhere)
    | (pushes, .error e) => (camlDebug ++ pushes, .error e, lbWhere)

/-- Field descriptor shaped like a LoopBack model property definition
with a declared type and a SharePoint column-name mapping. -/
def propDef (typeName : String) (colName : String) : JSVal :=
  .obj [("type", .obj [("name", .str typeName)]),
        ("sharepoint", .obj [("columnName", .str colName)])]

/-- The property bag of the `User` model used by the repository's test
suites. -/
def userProps : List (String × JSVal) :=
  [("firstName", propDef "String" "FirstName"),
   ("lastName", propDef "String" "LastName"),
   ("email", propDef "String" "Email"),
   ("age", propDef "Number" "Age"),
   ("startDate", propDef "Date" "StartDate"),
   ("isEmployee", propDef "Boolean" "IsEmployee"),
   ("displayName", propDef "String" "DisplayName")]

/-- The `User` model definition used by the repository's test suites. -/
def userModel : JSVal := .obj [("name", .str "User"), ("properties", .obj userProps)]

section SimpKit

variable {α β : Type}

@[simp] theorem pure_except_eq (a : α) : (pure a : Except JSErr α) = Except.ok a := rfl

@[simp] theorem ok_bind_eq (a : α) (f : α → Except JSErr β) :
    (Except.ok a >>= f : Except JSErr β) = f a := rfl

@[simp] theorem error_bind_eq (e : JSErr) (f : α → Except JSErr β) :
    ((Except.error e : Except JSErr α) >>= f) = Except.error e := rfl

@[simp] theorem map_ok_eq (f : α → β) (a : α) :
    (f <$> (Except.ok a : Except JSErr α)) = Except.ok (f a) := rfl

@[simp] theorem map_error_eq (f : α → β) (e : JSErr) :
    (f <$> (Except.error e : Except JSErr α)) = Except.error e := rfl

end SimpKit

@[simp] theorem getCamlName_and : SPLib.getCamlName "and" = some "And" := rfl
@[simp] theorem getCamlName_or : SPLib.getCamlName "or" = some "Or" := rfl
@[simp] theorem getCamlName_eqop : SPLib.getCamlName "=" = some "Eq" := rfl
@[simp] theorem getCamlName_neq : SPLib.getCamlName "neq" = some "Neq" := rfl
@[simp] theorem getCamlName_gt : SPLib.getCamlName "gt" = some "Gt" := rfl
@[simp] theorem getCamlName_gte : SPLib.getCamlName "gte" = some "Geq" := rfl
@[simp] theorem getCamlName_lt : SPLib.getCamlName "lt" = some "Lt" := rfl
@[simp] theorem getCamlName_lte : SPLib.getCamlName "lte" = some "Leq" := rfl
@[simp] theorem getCamlName_inq : SPLib.getCamlName "inq" = some "In" := rfl
@[simp] theorem getCamlName_like : SPLib.getCamlName "like" = some "BeginsWith" := rfl
@[simp] theorem getCamlName_contains : SPLib.getCamlName "contains" = some "Contains" := rfl
@[simp] theorem getCamlName_nin : SPLib.getCamlName "nin" = none := rfl
@[simp] theorem getCamlName_inword : SPLib.getCamlName "in" = none := rfl
@[simp] theorem getCamlName_between : SPLib.getCamlName "between" = none := rfl

@[simp] theorem getDefaultType_upperString : SPLib.getDefaultSharePointType (.str "String") = .ok "Text" := rfl
@[simp] theorem getDefaultType_upperNumber : SPLib.getDefaultSharePointType (.str "Number") = .ok "Number" := rfl
@[simp] theorem getDefaultType_upperBoolean : SPLib.getDefaultSharePointType (.str "Boolean") = .ok "Boolean" := rfl
@[simp] theorem getDefaultType_upperDate : SPLib.getDefaultSharePointType (.str "Date") = .ok "DateTime" := rfl

@[simp] theorem digitChar0 : digitChar 0 = '0' := rfl
@[simp] theorem digitChar1 : digitChar 1 = '1' := rfl
@[simp] theorem digitChar2 : digitChar 2 = '2' := rfl
@[simp] theorem digitChar3 : digitChar 3 = '3' := rfl
@[simp] theorem digitChar4 : digitChar 4 = '4' := rfl
@[simp] theorem digitChar5 : digitChar 5 = '5' := rfl
@[simp] theorem digitChar6 : digitChar 6 = '6' := rfl
@[simp] theorem digitChar7 : digitChar 7 = '7' := rfl
@[simp] theorem digitChar8 : digitChar 8 = '8' := rfl
@[simp] theorem digitChar9 : digitChar 9 = '9' := rfl

attribute [simp] lookupField splitCharsOn jsSplitChar jsSplitSpace JSVal.isNullish JSVal.isArr JSVal.isStr jsIsObject jsIsEmpty jsTruthy
  jsToString jsKeys jsValues jsIndex jsMember jsHasOwnProperty jsSet jsSet.jsSetFields
  jsGetPath digitsPrefix parseIntStr jsParseInt jsonQuote jsonStringify jsonStringifyText
  strConcat joinSep escapeXmlText escapeXmlAttr renderAttrs renderElem xmlBuildObject
  camlKeyOf objLiteral natToChars natToString intToString
  SPLib.getSPFieldName SPLib.getSPFieldType SPLib.parseExpression SPLib._buildCamlExpression
  SPLib.restructureCheck SPLib._addCamlCondition SPLib._buildCamlCondition
  SPLib._buildLogicalCaml SPLib._buildLogicalFold SPLib.buildWhere
  SPLib._getOrderByFieldRef SPLib.buildRowLimit propDef userProps userModel

theorem string_mk_append (as bs : List Char) :
    String.mk as ++ String.mk bs = String.mk (as ++ bs) := rfl

theorem string_data_mk (cs : List Char) : (String.mk cs).data = cs := rfl

theorem string_toList_mk (cs : List Char) : (String.mk cs).toList = cs := rfl

/-- Characters that need no XML escaping pass through `escapeXmlText`. -/
theorem escapeXmlText_eq_self (s : String)
    (h : ∀ c ∈ s.data, ¬(c = '&' ∨ c = '<' ∨ c = '>')) : escapeXmlText s = s := by
  obtain ⟨cs⟩ := s
  induction cs with
  | nil => rfl
  | cons c rest ih =>
      have hc := h c (by simp [string_data_mk])
      have hrest : ∀ x ∈ (String.mk rest).data, ¬(x = '&' ∨ x = '<' ∨ x = '>') := by
        intro x hx
        exact h x (by simp [string_data_mk] at hx ⊢; exact Or.inr hx)
      have ihrest := ih hrest
      push_neg at hc
      simp only [escapeXmlText, string_toList_mk, List.map_cons, strConcat, List.foldr_cons,
        if_neg hc.1, if_neg hc.2.1, if_neg hc.2.2]
      simp only [escapeXmlText, string_toList_mk, strConcat] at ihrest
      rw [ihrest]
      exact string_mk_append [c] rest

theorem digitChar_not_special (d : Nat) (h : d < 10) :
    ¬(digitChar d = '&' ∨ digitChar d = '<' ∨ digitChar d = '>') := by
  interval_cases d <;> decide

theorem natToChars_not_special (fuel n : Nat) :
    ∀ c ∈ natToChars fuel n, ¬(c = '&' ∨ c = '<' ∨ c = '>') := by
  induction fuel generalizing n with
  | zero => simp [natToChars]
  | succ fuel ih =>
      intro c hc
      simp only [natToChars] at hc
      split at hc
      · simp at hc
        subst hc
        exact digitChar_not_special n (by omega)
      · simp at hc
        rcases hc with h1 | h2
        · exact ih _ c h1
        · subst h2
          exact digitChar_not_special _ (Nat.mod_lt _ (by omega))

theorem intToString_not_special (i : Int) :
    ∀ c ∈ (intToString i).data, ¬(c = '&' ∨ c = '<' ∨ c = '>') := by
  intro c hc
  unfold intToString at hc
  split at hc
  · rw [show ("-" ++ natToString (-i).toNat) = String.mk ('-' :: natToChars ((-i).toNat + 1) (-i).toNat) from rfl] at hc
    rw [string_data_mk] at hc
    rcases List.mem_cons.mp hc with h1 | h2
    · subst h1; decide
    · exact natToChars_not_special _ _ c h2
  · rw [show natToString i.toNat = String.mk (natToChars (i.toNat + 1) i.toNat) from rfl] at hc
    rw [string_data_mk] at hc
    exact natToChars_not_special _ _ c hc

theorem natToChars_ne_nil (fuel n : Nat) (h : fuel ≠ 0) : natToChars fuel n ≠ [] := by
  cases fuel with
  | zero => omega
  | succ fuel =>
      simp only [natToChars]
      split <;> simp

theorem intToString_ne_empty (i : Int) : intToString i ≠ "" := by
  unfold intToString
  split
  · intro h
    have := congrArg String.data h
    rw [show ("-" ++ natToString (-i).toNat) = String.mk ('-' :: natToChars ((-i).toNat + 1) (-i).toNat) from rfl] at this
    simp [string_data_mk] at this
  · intro h
    have := congrArg String.data h
    rw [show natToString i.toNat = String.mk (natToChars (i.toNat + 1) i.toNat) from rfl] at this
    rw [string_data_mk] at this
    exact natToChars_ne_nil (i.toNat + 1) i.toNat (Nat.succ_ne_zero _) (by simpa using this)

/-- C1: the claim states that n sibling conditions under one connective
always compile to a strictly binary, right-leaning CAML tree of nesting
depth n-1 in original order.  The code violates this: its restructuring
bookkeeping counts distinct operator keys instead of conditions, so for
the three AND-ed conditions gt, gt, lt below (two sharing an operator
key, the third introducing a new one) `SPLib.buildWhere` emits a ternary
`<And>` with three direct children at depth 0 instead of
`And(a, And(b, c))`.  This contradicts the comments in
`_buildLogicalCaml`/`_addCamlCondition` ("CAML logical filers can
contain only 2 conditions ... they must be nested within each other")
and the intent the exact-XML tests pin down for same-operator runs, so
the claim is right and the code has a bug. -/
theorem claim_C1_ternary_and_emitted :
    SPLib.buildWhere userModel (.obj [("and", .arr [
      .obj [("age", .obj [("gt", .num 20)])],
      .obj [("age", .obj [("gt", .num 30)])],
      .obj [("age", .obj [("lt", .num 100)])]])]) =
    .ok ("<Where><And><Gt><FieldRef Name=\"Age\"/><Value Type=\"Number\">20</Value></Gt>" ++
      "<Gt><FieldRef Name=\"Age\"/><Value Type=\"Number\">30</Value></Gt>" ++
      "<Lt><FieldRef Name=\"Age\"/><Value Type=\"Number\">100</Value></Lt></And></Where>") := by
  simp <;> rfl

/-- C9: `SPLib.getSPFieldType` returns the CAML type `Number` for the
field named `ID` for every model whatsoever — in particular for models
whose metadata carries an `ID` entry with an explicit
`sharepoint.dataType` override — because the hardcoded identity-field
branch precedes every metadata lookup. -/
theorem claim_C9_ID_hardcoded_precedence :
    ∀ model : JSVal, SPLib.getSPFieldType model "ID" = .ok (.str "Number") :=
  fun _ => rfl

/-- C10 (amended): a logical `and`/`or` node with exactly one child whose
own compilation succeeds crashes the compiler with the untyped
`TypeError` of `Object.keys(undefined)` — `_buildLogicalCaml`
unconditionally compiles the missing second child — while a logical node
with an empty child array does not crash at all: it compiles to an empty
logical element.  (The original claim said every array of fewer than 2
children crashes; the empty array is the exception.) -/
theorem claim_C10_single_child_crash (model : JSVal) (k : String) (c r : JSVal)
    (hk : k = "and" ∨ k = "or")
    (hc : SPLib._buildCamlCondition model c = .ok r) :
    SPLib._buildCamlCondition model (.obj [(k, .arr [c])]) =
      .error (.typeError "Cannot convert undefined or null to object") ∧
    SPLib._buildCamlCondition model (.obj [(k, .arr [])]) =
      .ok (.obj [(camlKeyOf (SPLib.getCamlName k), .obj [])]) := by
  rcases hk with rfl | rfl <;>
    constructor <;>
      simp [SPLib._buildCamlCondition, SPLib._buildLogicalCaml, hc]

/-- C10 counterexample: the claim as stated covers every logical node
with fewer than 2 children, but a zero-child `and` compiles without any
runtime failure to an empty `<And/>` element. -/
theorem claim_C10_counterexample :
    SPLib.buildWhere userModel (.obj [("and", .arr [])]) = .ok "<Where><And/></Where>" := by
  simp

theorem claim_C10_witness :
    SPLib._buildCamlCondition userModel (.obj [("and", .arr [.obj [("age", .num 28)]])]) =
      .error (.typeError "Cannot convert undefined or null to object") ∧
    SPLib._buildCamlCondition userModel (.obj [("and", .arr [])]) =
      .ok (.obj [("And", .obj [])]) := by
  have h := claim_C10_single_child_crash userModel "and" (.obj [("age", .num 28)])
    (.obj [("Eq", .obj [
      ("FieldRef", .obj [("$", .obj [("Name", .str "Age")])]),
      ("Value", .obj [("_", .num 28), ("$", .obj [("Type", .str "Number")])])])])
    (Or.inl rfl) (by simp <;> rfl)
  exact ⟨h.1, by simpa using h.2⟩

/-- C5: a where-clause object with two or more top-level keys always
fails in `_buildCamlCondition` with the malformed-clause `Error` before
any output is produced, and the empty object compiles to the empty
string, which the caller renders as no `<Where>` element at all.  The
`Nodup` hypothesis restricts the association list to genuine JavaScript
objects, whose keys are distinct. -/
theorem claim_C5_multi_key_clause (model : JSVal) (fields : List (String × JSVal))
    (hnodup : (fields.map Prod.fst).Nodup) (hlen : 2 ≤ fields.length) :
    SPLib.buildWhere model (.obj fields) =
      .error (.error ("Invalid " ++ sglq ++ "where" ++ sglq ++
        " clause. It must be in \x7bkey: value\x7d format.")) ∧
    SPLib.buildWhere model (.obj []) = .ok "" := by
  constructor
  · have hne : fields ≠ [] := by
      intro h
      subst h
      simp at hlen
    have h0 : fields.length ≠ 0 := by
      intro h
      exact hne (List.length_eq_zero.mp h)
    have h1 : fields.length ≠ 1 := by omega
    unfold SPLib.buildWhere
    rw [if_neg (by simp [jsIsEmpty, hne])]
    unfold SPLib._buildCamlCondition
    simp [jsKeys, h0, h1, hne]
  · rfl

theorem claim_C5_witness :
    SPLib.buildWhere userModel (.obj [("a", .num 1), ("b", .num 2)]) =
      .error (.error ("Invalid " ++ sglq ++ "where" ++ sglq ++
        " clause. It must be in \x7bkey: value\x7d format.")) ∧
    SPLib.buildWhere userModel (.obj []) = .ok "" :=
  claim_C5_multi_key_clause userModel [("a", .num 1), ("b", .num 2)]
    (by simp) (by simp)

/-- C3: in `SPLib.getSPFieldType`, a field whose name is `ID` resolves
to CAML type `Number` for every model, while any other field absent from
the model's property bag makes type resolution throw the unknown-field
`Error` — so the error is raised while the expression is being compiled,
before any output can be produced. -/
theorem claim_C3_unknown_field_fails (model : JSVal) (props : List (String × JSVal)) (field : String)
    (hprops : jsMember model "properties" = .ok (.obj props))
    (habsent : lookupField props field = none)
    (hfield : field ≠ "ID") :
    SPLib.getSPFieldType model field =
      .error (.error ("Property " ++ field ++ " is not defined for type " ++
        jsToString (jsIndex model "name") ++ ".")) ∧
    (∀ m : JSVal, SPLib.getSPFieldType m "ID" = .ok (.str "Number")) := by
  constructor
  · unfold SPLib.getSPFieldType
    rw [if_neg hfield, hprops]
    simp [jsMember, jsIndex, habsent, jsTruthy]
  · intro m
    rfl

theorem claim_C3_witness :
    SPLib.getSPFieldType userModel "salary" =
      .error (.error "Property salary is not defined for type User.") ∧
    SPLib.getSPFieldType (.obj []) "ID" = .ok (.str "Number") := by
  have h := claim_C3_unknown_field_fails userModel userProps "salary"
    (by rfl) (by rfl) (by decide)
  refine ⟨?_, h.2 (.obj [])⟩
  have h1 := h.1
  simpa using h1

/-- C4 (amended): in `SPLib._buildCamlExpression` the multi-value branch
is taken for the operators `inq` and `nin` (not for the operator name
`in`, which this variant leaves unmapped): a non-array operand throws
the invalid-operand `Error`, and an array operand of k elements produces
a `Values` node holding exactly k `Value` children, each carrying the
field's resolved CAML type in its `Type` attribute. -/
theorem claim_C4_inq_values (model : JSVal) (field op : String) (value ft : JSVal)
    (hop : op = "inq" ∨ op = "nin")
    (hft : SPLib.getSPFieldType model field = .ok ft) :
    (value.isArr = false →
      SPLib._buildCamlExpression model (.obj [(field, .obj [(op, value)])]) =
        .error (.error ("Invalid " ++ sglq ++ "in" ++ sglq ++ " values. Must be an array."))) ∧
    (∀ xs : List JSVal, value = .arr xs →
      SPLib._buildCamlExpression model (.obj [(field, .obj [(op, value)])]) =
        .ok (.obj [(camlKeyOf (SPLib.getCamlName op), .obj [
          ("FieldRef", .obj [("$", .obj [("Name", SPLib.getSPFieldName model field)])]),
          ("Values", .obj [("Value", .arr (xs.map fun v =>
            .obj [("_", v), ("$", .obj [("Type", ft)])]))])])]) ∧
      (xs.map fun v => (.obj [("_", v), ("$", .obj [("Type", ft)])] : JSVal)).length = xs.length) := by
  have hparse : SPLib.parseExpression (.obj [(field, .obj [(op, value)])]) = .ok (field, op, value) := by
    simp
  constructor
  · intro hv
    unfold SPLib._buildCamlExpression
    rw [hparse]
    simp only [ok_bind_eq]
    rw [show SPLib.getSPFieldType model (field, op, value).1 = .ok ft from hft]
    simp only [ok_bind_eq]
    rw [if_pos hop]
    cases value <;> first | rfl | (simp [JSVal.isArr] at hv)
  · intro xs hxs
    subst hxs
    refine ⟨?_, by simp⟩
    unfold SPLib._buildCamlExpression
    rw [hparse]
    simp only [ok_bind_eq]
    rw [show SPLib.getSPFieldType model (field, op, JSVal.arr xs).1 = .ok ft from hft]
    simp only [ok_bind_eq]
    rw [if_pos hop]
    rfl

/-- C4 counterexample: the claim also covers the operator name `in`, but
`sp-lib.js` does not treat `in` as multi-valued: with a non-array
operand it does not fail with the invalid-operand error — it falls
through to the single-value branch and, since `in` is missing from
`getCamlName`, emits an element literally tagged `undefined`. -/
theorem claim_C4_counterexample :
    SPLib.buildWhere userModel (.obj [("age", .obj [("in", .num 5)])]) =
      .ok "<Where><undefined><FieldRef Name=\"Age\"/><Value Type=\"Number\">5</Value></undefined></Where>" := by
  simp <;> rfl

theorem claim_C4_witness :
    SPLib._buildCamlExpression userModel (.obj [("age", .obj [("inq", .arr [.num 4, .num 5])])]) =
      .ok (.obj [("In", .obj [
        ("FieldRef", .obj [("$", .obj [("Name", .str "Age")])]),
        ("Values", .obj [("Value", .arr [
          .obj [("_", .num 4), ("$", .obj [("Type", .str "Number")])],
          .obj [("_", .num 5), ("$", .obj [("Type", .str "Number")])]])])])]) := by
  have h := (claim_C4_inq_values userModel "age" "inq" (.arr [.num 4, .num 5]) (.str "Number")
    (Or.inl rfl) (by simp)).2 [.num 4, .num 5] rfl
  have h1 := h.1
  simpa using h1

/-- C8: for a where-clause leaf whose operator (here `between`) is
missing from the fixed `getCamlName` table, the claim — and the spec's
error-handling design — require compilation to fail; instead the switch
returns `undefined`, the computed property key stringifies it, and
`SPLib.buildWhere` succeeds while emitting an element whose tag is the
literal text `undefined`.  The spec itself flags this family of
behaviors as a defect ("treat as a defect, not intended behavior"), so
the claim is right and the code is wrong. -/
theorem claim_C8_unknown_operator_emitted :
    SPLib.buildWhere userModel (.obj [("age", .obj [("between", .num 5)])]) =
      .ok "<Where><undefined><FieldRef Name=\"Age\"/><Value Type=\"Number\">5</Value></undefined></Where>" := by
  simp <;> rfl

/-- C6 (amended): `SPLib._getOrderByFieldRef` splits an order spec on
single spaces; one token yields a `FieldRef` with no `Ascending`
attribute, two tokens yield `Ascending="TRUE"`/`"FALSE"` for the
case-insensitive direction `ASC`/`DESC` and throw the invalid-direction
`Error` for any other second token; but for any other token count the
JavaScript function falls off the end and returns `undefined` without
raising anything.  (The original claim said any token count other than 1
or 2 also fails with the error.) -/
theorem claim_C6_order_tokens (model : JSVal) (s : String) :
    ((jsSplitSpace s).length = 1 →
      SPLib._getOrderByFieldRef model (.str s) = .ok (some (.obj [("FieldRef",
        .obj [("$", .obj [("Name", SPLib.getSPFieldName model ((jsSplitSpace s).headD ""))])])]))) ∧
    ((jsSplitSpace s).length = 2 → jsToUpper ((jsSplitSpace s).getD 1 "") = "ASC" →
      SPLib._getOrderByFieldRef model (.str s) = .ok (some (.obj [("FieldRef",
        .obj [("$", .obj [("Name", SPLib.getSPFieldName model ((jsSplitSpace s).headD "")),
          ("Ascending", .str "TRUE")])])]))) ∧
    ((jsSplitSpace s).length = 2 → jsToUpper ((jsSplitSpace s).getD 1 "") = "DESC" →
      SPLib._getOrderByFieldRef model (.str s) = .ok (some (.obj [("FieldRef",
        .obj [("$", .obj [("Name", SPLib.getSPFieldName model ((jsSplitSpace s).headD "")),
          ("Ascending", .str "FALSE")])])]))) ∧
    ((jsSplitSpace s).length = 2 → jsToUpper ((jsSplitSpace s).getD 1 "") ≠ "ASC" →
      jsToUpper ((jsSplitSpace s).getD 1 "") ≠ "DESC" →
      SPLib._getOrderByFieldRef model (.str s) =
        .error (.error "Invalid order direction. Must be either ASC or DESC")) ∧
    ((jsSplitSpace s).length ≠ 1 → (jsSplitSpace s).length ≠ 2 →
      SPLib._getOrderByFieldRef model (.str s) = .ok none) := by
  refine ⟨?_, ?_, ?_, ?_, ?_⟩
  · intro h1
    simp only [SPLib._getOrderByFieldRef]
    rw [if_pos h1]
    rfl
  · intro h2 ha
    simp only [SPLib._getOrderByFieldRef]
    rw [if_neg (by omega), if_pos h2, ha]
    rfl
  · intro h2 hd
    simp only [SPLib._getOrderByFieldRef]
    rw [if_neg (by omega), if_pos h2, hd]
    rfl
  · intro h2 hA hD
    simp only [SPLib._getOrderByFieldRef]
    rw [if_neg (by omega), if_pos h2, if_neg hA, if_neg hD]
  · intro h1 h2
    simp only [SPLib._getOrderByFieldRef]
    rw [if_neg h1, if_neg h2]
    rfl

/-- C6 counterexample: a three-token order spec does not fail — the
order emitter returns `undefined` (`none`) with no error, contradicting
the claim that any token count other than 1 or 2 raises
`InvalidOrderError`. -/
theorem claim_C6_counterexample :
    SPLib._getOrderByFieldRef userModel (.str "a b c") = .ok none := by
  simp

theorem claim_C6_witness :
    SPLib._getOrderByFieldRef userModel (.str "lastName DESC") = .ok (some (.obj [("FieldRef",
      .obj [("$", .obj [("Name", .str "LastName"), ("Ascending", .str "FALSE")])])])) := by
  have h := (claim_C6_order_tokens userModel "lastName DESC").2.2.1 (by simp) (by rfl)
  simpa using h

/-- C7 (amended): `SPLib.buildRowLimit` never raises; when `_.parseInt`
yields `NaN` or `0` it emits the empty string, and for every other
parsed integer — positive or negative — it emits a `RowLimit` element
containing that integer's decimal rendering.  (The original claim said
all non-positive inputs emit nothing; only zero and unparseable inputs
do.) -/
theorem claim_C7_row_limit (limit : JSVal) :
    (jsParseInt limit = none → SPLib.buildRowLimit limit = "") ∧
    (jsParseInt limit = some 0 → SPLib.buildRowLimit limit = "") ∧
    (∀ n : Int, n ≠ 0 → jsParseInt limit = some n →
      SPLib.buildRowLimit limit = "<RowLimit>" ++ intToString n ++ "</RowLimit>") := by
  refine ⟨?_, ?_, ?_⟩
  · intro h
    simp only [SPLib.buildRowLimit, h]
  · intro h
    simp only [SPLib.buildRowLimit, h]
    rfl
  · intro n hn hp
    simp only [SPLib.buildRowLimit, hp]
    rw [if_neg hn]
    have hesc : escapeXmlText (jsToString (.num n)) = intToString n := by
      have hnum : jsToString (.num n) = intToString n := by simp only [jsToString]
      rw [hnum]
      exact escapeXmlText_eq_self _ (intToString_not_special n)
    simp only [xmlBuildObject, List.map_cons, List.map_nil, strConcat, List.foldr_cons,
      List.foldr_nil, renderElem]
    rw [hesc]
    rw [if_neg (intToString_ne_empty n)]
    apply String.ext
    simp [String.data_append, string_data_mk]

/-- C7 counterexample: `-5` is a non-positive limit that the claim says
emits nothing, yet the emitter only checks JavaScript falsiness of the
parsed value, so it emits a `RowLimit` element containing `-5`. -/
theorem claim_C7_counterexample :
    SPLib.buildRowLimit (.num (-5)) = "<RowLimit>-5</RowLimit>" := by
  simp

theorem claim_C7_witness :
    SPLib.buildRowLimit (.str "abc") = "" ∧
    SPLib.buildRowLimit (.num 10) = "<RowLimit>10</RowLimit>" := by
  refine ⟨(claim_C7_row_limit (.str "abc")).1 (by simp), ?_⟩
  have h := (claim_C7_row_limit (.num 10)).2.2 10 (by decide) (by simp)
  simpa using h

/-- C2: compiling a where-clause tree twice through
`CamlBuilder.buildWhere` yields identical results, and the caller's tree
is unmodified by each call.  The embedding makes the two side-effect
channels of the source explicit: the `camlDebug` instance state grows
across calls (it is threaded through, and the output is proven
independent of it), and the in-place `shift` consumption of the clause
arrays inside `_buildWhere` acts only on the `_.cloneDeep` copy taken at
entry, so the caller-visible tree keeps its value and the second call —
run with the grown debug state on the returned tree — produces the same
result as the first. -/
theorem claim_C2_repeat_compile (model : JSVal) (camlDebug : List JSVal) (w : JSVal) :
    (CamlBuilder.buildWhere model camlDebug w).2.2 = w ∧
    (CamlBuilder.buildWhere model (CamlBuilder.buildWhere model camlDebug w).1
        ((CamlBuilder.buildWhere model camlDebug w).2.2)).2.1 =
      (CamlBuilder.buildWhere model camlDebug w).2.1 := by
  have key : ∀ dbg : List JSVal, (CamlBuilder.buildWhere model dbg w).2 =
      ((CamlBuilder.buildWhere model [] w).2.1, w) := by
    intro dbg
    unfold CamlBuilder.buildWhere
    by_cases hE : jsIsEmpty w
    · simp only [if_pos hE]
    · simp only [if_neg hE]
      rcases h : CamlBuilder._buildWhere model (cloneDeep w) .undef .undef with ⟨p, r⟩
      cases r <;> rfl
  have hfst : ∀ dbg : List JSVal, (CamlBuilder.buildWhere model dbg w).2.1 =
      (CamlBuilder.buildWhere model [] w).2.1 := by
    intro dbg
    rw [key dbg]
  have h1 : (CamlBuilder.buildWhere model camlDebug w).2.2 = w := by
    rw [key camlDebug]
  refine ⟨h1, ?_⟩
  rw [h1, hfst ((CamlBuilder.buildWhere model camlDebug w).1), hfst camlDebug]
